import Mathlib

/-!
Shallow embedding of the node-onvif client (soap.js, device.js,
service-media.js, service-imaging.js) and proofs about its behaviour.

JavaScript values produced by the xml2js parser and passed between the
modules are modelled by the inductive type `JsValue`; property access,
truthiness, string coercion and the numeric parsing builtins are embedded
with JavaScript semantics (property access on `undefined`/`null` throws,
modelled as `Except.error`).  External collaborators of the transport
layer (the system clock, the ISO-8601 formatter of `Date`, SHA-1 and the
secure random source) are parameters collected in `CryptoEnv`.
-/

namespace NodeOnvif

/-- JavaScript runtime values as they appear in this code base: the trees the
xml2js parser produces (strings and nested objects), plus the other primitive
values the modules pass around.  `num none` models `NaN`. -/
inductive JsValue where
  | undefined
  | jsnull
  | bool (b : Bool)
  | num (x : Option Rat)
  | str (s : String)
  | arr (elems : List JsValue)
  | node (fields : List (String × JsValue))

/-- First binding of a key in a JS object literal; a missing key reads as
`undefined`. -/
def jsLookup (fields : List (String × JsValue)) (k : String) : JsValue :=
  match fields.find? (fun kv => kv.fst == k) with
  | some kv => kv.snd
  | none => .undefined

/-- JavaScript property access `v[k]`: accessing a property of `undefined` or
`null` throws a TypeError (`Except.error`); on any other value it yields the
property value, or `undefined` when the key is absent or the value is a
primitive. -/
def jsGet : JsValue → String → Except Unit JsValue
  | .undefined, _ => .error ()
  | .jsnull, _ => .error ()
  | .node fields, k => .ok (jsLookup fields k)
  | _, _ => .ok .undefined

/-- Chained property access `v[k1][k2]...`. -/
def jsGetChain (v : JsValue) : List String → Except Unit JsValue
  | [] => .ok v
  | k :: rest => do jsGetChain (← jsGet v k) rest

/-- JavaScript truthiness. -/
def jsTruthy : JsValue → Bool
  | .undefined => false
  | .jsnull => false
  | .bool b => b
  | .num none => false
  | .num (some q) => q != 0
  | .str s => s != ""
  | .arr _ => true
  | .node _ => true

/-- The JS `typeof` operator (`typeof null` is `"object"`). -/
def jsTypeof : JsValue → String
  | .undefined => "undefined"
  | .jsnull => "object"
  | .bool _ => "boolean"
  | .num _ => "number"
  | .str _ => "string"
  | .arr _ => "object"
  | .node _ => "object"

mutual

/-- The JS `String(v)` coercion for the values of this model.  Plain objects
print as `[object Object]`; arrays join their elements with commas, printing
`null` and `undefined` elements as empty strings. -/
def jsToString : JsValue → String
  | .undefined => "undefined"
  | .jsnull => "null"
  | .bool b => if b then "true" else "false"
  | .num none => "NaN"
  | .num (some q) => toString q
  | .str s => s
  | .arr l => String.intercalate "," (jsElemStrings l)
  | .node _ => "[object Object]"

/-- Element strings of `Array.prototype.toString`. -/
def jsElemStrings : List JsValue → List String
  | [] => []
  | .undefined :: rest => "" :: jsElemStrings rest
  | .jsnull :: rest => "" :: jsElemStrings rest
  | v :: rest => jsToString v :: jsElemStrings rest

end

/-! ### Base64 (Node `Buffer.toString('base64')` / `Buffer.from(s,'base64')`) -/

def b64Alphabet : List Char :=
  ['A','B','C','D','E','F','G','H','I','J','K','L','M','N','O','P','Q','R','S',
   'T','U','V','W','X','Y','Z','a','b','c','d','e','f','g','h','i','j','k','l',
   'm','n','o','p','q','r','s','t','u','v','w','x','y','z','0','1','2','3','4',
   '5','6','7','8','9','+','/']

def b64CharOf (n : Nat) : Char := b64Alphabet.getD n 'A'

/-- Value of a base64 character; characters outside the alphabet (including
the `=` padding) are ignored by Node's decoder. -/
def b64Val (c : Char) : Option Nat :=
  b64Alphabet.indexOf? c

def b64EncodeChars : List Nat → List Char
  | [] => []
  | [a] => [b64CharOf (a / 4), b64CharOf (a % 4 * 16), '=', '=']
  | [a, b] => [b64CharOf (a / 4), b64CharOf (a % 4 * 16 + b / 16), b64CharOf (b % 16 * 4), '=']
  | a :: b :: c :: rest =>
      b64CharOf (a / 4) :: b64CharOf (a % 4 * 16 + b / 16) ::
      b64CharOf (b % 16 * 4 + c / 64) :: b64CharOf (c % 64) :: b64EncodeChars rest

/-- `Buffer.prototype.toString('base64')`. -/
def b64Encode (bytes : List Nat) : String := String.mk (b64EncodeChars bytes)

def b64DecodeVals : List Nat → List Nat
  | a :: b :: c :: d :: rest =>
      (a * 4 + b / 16) :: (b % 16 * 16 + c / 4) :: (c % 4 * 64 + d) :: b64DecodeVals rest
  | [a, b] => [a * 4 + b / 16]
  | [a, b, c] => [a * 4 + b / 16, b % 16 * 16 + c / 4]
  | _ => []

/-- `Buffer.from(s, 'base64')` as a byte list. -/
def b64Decode (s : String) : List Nat := b64DecodeVals (s.toList.filterMap b64Val)

theorem b64Val_b64CharOf : ∀ v : Fin 64, b64Val (b64CharOf v.val) = some v.val := by decide

theorem b64Val_eq (v : Nat) (h : v < 64) : b64Val (b64CharOf v) = some v :=
  b64Val_b64CharOf ⟨v, h⟩

theorem b64Val_pad : b64Val '=' = none := by decide

theorem toList_b64Encode (bytes : List Nat) : (b64Encode bytes).toList = b64EncodeChars bytes := rfl

/-- Round-trip of base64 on byte lists: decoding the encoding recovers the
bytes. -/
theorem b64Decode_b64Encode (bytes : List Nat) (h : ∀ x ∈ bytes, x < 256) :
    b64Decode (b64Encode bytes) = bytes := by
  unfold b64Decode
  rw [toList_b64Encode]
  induction bytes using b64EncodeChars.induct with
  | case1 =>
      simp [b64EncodeChars, b64DecodeVals]
  | case2 a =>
      have ha : a < 256 := h a (by simp)
      simp [b64EncodeChars, List.filterMap,
        b64Val_eq (a / 4) (by omega), b64Val_eq (a % 4 * 16) (by omega), b64Val_pad,
        b64DecodeVals]
      omega
  | case3 a b =>
      have ha : a < 256 := h a (by simp)
      have hb : b < 256 := h b (by simp)
      simp [b64EncodeChars, List.filterMap,
        b64Val_eq (a / 4) (by omega), b64Val_eq (a % 4 * 16 + b / 16) (by omega),
        b64Val_eq (b % 16 * 4) (by omega), b64Val_pad, b64DecodeVals]
      omega
  | case4 a b c rest ih =>
      have ha : a < 256 := h a (by simp)
      have hb : b < 256 := h b (by simp)
      have hc : c < 256 := h c (by simp)
      have hrest : ∀ x ∈ rest, x < 256 := by
        intro x hx; exact h x (by simp [hx])
      simp only [b64EncodeChars, List.filterMap_cons,
        b64Val_eq (a / 4) (by omega : a / 4 < 64),
        b64Val_eq (a % 4 * 16 + b / 16) (by omega : a % 4 * 16 + b / 16 < 64),
        b64Val_eq (b % 16 * 4 + c / 64) (by omega : b % 16 * 4 + c / 64 < 64),
        b64Val_eq (c % 64) (by omega : c % 64 < 64)]
      simp only [b64DecodeVals, ih hrest, List.cons.injEq, and_true]
      omega

/-! ### JS numeric parsing builtins (`parseFloat`, `parseInt`) -/

def isWsChar (c : Char) : Bool := c == ' ' || c == '\t' || c == '\n' || c == '\r'

/-- Leading decimal digits of a character list, with the remainder. -/
def takeDigits : List Char → List Nat × List Char
  | [] => ([], [])
  | c :: rest =>
      if c.isDigit then
        let (ds, r) := takeDigits rest
        ((c.toNat - 48) :: ds, r)
      else ([], c :: rest)

def natOfDigits (ds : List Nat) : Nat := ds.foldl (fun acc d => acc * 10 + d) 0

def fracOfDigits (ds : List Nat) : Rat := ds.foldr (fun d acc => ((d : Rat) + acc) / 10) 0

/-- Unsigned part of `parseFloat`: integer digits, optional fraction; `none`
when no digit is consumed (NaN).  Exponent suffixes are not modelled (no value
handled by this code base carries one). -/
def parseFloatUnsigned (cs : List Char) : Option Rat :=
  let (ip, rest) := takeDigits cs
  match rest with
  | '.' :: rest2 =>
      let (fp, _) := takeDigits rest2
      if ip.isEmpty && fp.isEmpty then none
      else some ((natOfDigits ip : Rat) + fracOfDigits fp)
  | _ => if ip.isEmpty then none else some (natOfDigits ip)

/-- `parseFloat` over the characters of a string; `none` models `NaN`. -/
def parseFloatChars (cs : List Char) : Option Rat :=
  match cs.dropWhile isWsChar with
  | '-' :: rest => (parseFloatUnsigned rest).map (fun q => -q)
  | '+' :: rest => parseFloatUnsigned rest
  | other => parseFloatUnsigned other

/-- `parseFloat(v)`: the argument is coerced to a string first. -/
def parseFloatJs (v : JsValue) : Option Rat := parseFloatChars (jsToString v).toList

def parseIntUnsigned (cs : List Char) : Option Int :=
  let (ip, _) := takeDigits cs
  if ip.isEmpty then none else some (natOfDigits ip)

/-- `parseInt(v, 10)`; `none` models `NaN`. -/
def parseIntJs (v : JsValue) : Option Int :=
  match (jsToString v).toList.dropWhile isWsChar with
  | '-' :: rest => (parseIntUnsigned rest).map (fun n => -n)
  | '+' :: rest => parseIntUnsigned rest
  | other => parseIntUnsigned other

/-! ### Digest Authenticator (soap.js `_generatePasswordDigest`,
`_createSoapUserToken`, `createRequestSoap`) -/

/-- External collaborators of the digest authenticator, listed by the spec as
consumed interfaces: the system clock (`Date.now()`), the ISO-8601 UTC
formatter (`Date.prototype.toISOString`), the SHA-1 hash and the secure
random-byte source (`crypto.randomBytes(16)` for one request). -/
structure CryptoEnv where
  nowMs : Int
  isoUTC : Int → String
  sha1 : List Nat → List Nat
  randomBytes16 : List Nat

/-- UTF-8 encoding of one character. -/
def utf8EncodeChar (c : Char) : List Nat :=
  let n := c.toNat
  if n < 0x80 then [n]
  else if n < 0x800 then [0xc0 + n / 64, 0x80 + n % 64]
  else if n < 0x10000 then [0xe0 + n / 4096, 0x80 + n / 64 % 64, 0x80 + n % 64]
  else [0xf0 + n / 262144, 0x80 + n / 4096 % 64, 0x80 + n / 64 % 64, 0x80 + n % 64]

/-- `Buffer.from(s, 'utf8')` as a byte list. -/
def utf8Bytes (s : String) : List Nat := (s.toList.map utf8EncodeChar).flatten

structure UserToken where
  date : String
  digest : String
  nonceBase64 : String

/-- `OnvifSoap.prototype._generatePasswordDigest(diff, password)`.  The
password is an `Option`: JS callers may pass `undefined`, and
`Buffer.from(undefined, "utf8")` throws a TypeError (the `Except.error`
case).  Otherwise: nonce = base64 of 16 random bytes, created = ISO string of
now + diff, digest = base64(SHA-1(base64-decoded nonce ++ created ++
password)). -/
def generatePasswordDigest (env : CryptoEnv) (diff : Int) (password : Option String) :
    Except Unit UserToken :=
  let nonce := b64Encode env.randomBytes16
  let created := env.isoUTC (env.nowMs + diff)
  match password with
  | none => .error ()
  | some pass =>
      let combined := b64Decode nonce ++ utf8Bytes created ++ utf8Bytes pass
      let passwordDigest := b64Encode (env.sha1 combined)
      .ok { date := created, digest := passwordDigest, nonceBase64 := nonce }

/-- `OnvifSoap.prototype._createSoapUserToken(diff, user, pass)`: the
`<Security>` header fragment around the generated token. -/
def createSoapUserToken (env : CryptoEnv) (diff : Int) (user : String)
    (pass : Option String) : Except Unit String :=
  (generatePasswordDigest env diff pass).map (fun t =>
    "<Security s:mustUnderstand=\"1\" xmlns=\"http://docs.oasis-open.org/wss/2004/01/oasis-200401-wss-wssecurity-secext-1.0.xsd\">" ++
    "<UsernameToken>" ++
    "<Username>" ++ user ++ "</Username>" ++
    "<Password Type=\"http://docs.oasis-open.org/wss/2004/01/oasis-200401-wss-username-token-profile-1.0#PasswordDigest\">" ++ t.digest ++ "</Password>" ++
    "<Nonce EncodingType=\"http://docs.oasis-open.org/wss/2004/01/oasis-200401-wss-soap-message-security-1.0#Base64Binary\">" ++ t.nonceBase64 ++ "</Nonce>" ++
    "<Created xmlns=\"http://docs.oasis-open.org/wss/2004/01/oasis-200401-wss-wssecurity-utility-1.0.xsd\">" ++ t.date ++ "</Created>" ++
    "</UsernameToken>" ++
    "</Security>")

/-- The whitespace collapse `soap.replace(/\>\s+\</g, '><')` applied at the
end of `createRequestSoap`: whitespace standing between a `>` and a `<` is
removed.  `acc` is `some ws` while scanning whitespace that follows a `>`. -/
def collapseTagsGo : Option (List Char) → List Char → List Char
  | none, [] => []
  | none, c :: rest =>
      if c == '>' then collapseTagsGo (some []) rest
      else c :: collapseTagsGo none rest
  | some ws, [] => '>' :: ws.reverse
  | some ws, c :: rest =>
      if isWsChar c then collapseTagsGo (some (c :: ws)) rest
      else if c == '<' then '>' :: '<' :: collapseTagsGo none rest
      else if c == '>' then ('>' :: ws.reverse) ++ collapseTagsGo (some []) rest
      else ('>' :: ws.reverse) ++ (c :: collapseTagsGo none rest)

def collapseTags (s : String) : String := String.mk (collapseTagsGo none s.toList)

/-- Parameter object of `OnvifSoap.prototype.createRequestSoap`.  Every caller
in the repository passes `user`/`pass` from a service object, where both are
strings (the service constructors normalize absent credentials to `""`); the
`pass` field keeps the option type to record what would reach
`_generatePasswordDigest`. -/
structure SoapParams where
  body : String
  xmlns : List String
  diff : Int
  user : String
  pass : Option String

/-- The envelope string assembled by `createRequestSoap` before the
whitespace collapse. -/
def requestEnvelopeRaw (ns : List String) (header body : String) : String :=
  "<?xml version=\"1.0\" encoding=\"UTF-8\"?>" ++
  "<s:Envelope" ++
  "  xmlns:s=\"http://www.w3.org/2003/05/soap-envelope\"" ++
  String.join (ns.map (fun n => " " ++ n)) ++
  ">" ++
  "<s:Header>" ++ header ++ "</s:Header>" ++
  "<s:Body>" ++ body ++ "</s:Body>" ++
  "</s:Envelope>"

/-- `OnvifSoap.prototype.createRequestSoap(params)`: the security header is
emitted only when `params.user` is truthy (a non-empty string). -/
def createRequestSoap (env : CryptoEnv) (p : SoapParams) : Except Unit String := do
  let header ← if p.user = "" then pure "" else createSoapUserToken env p.diff p.user p.pass
  pure (collapseTags (requestEnvelopeRaw p.xmlns header p.body))

/-! ### Parameter validation (soap.js `_getTypeOfValue`, `isInvalidValue`) -/

/-- `OnvifSoap.prototype._getTypeOfValue`.  `NaN % 1` is `NaN`, not `0`, so
`NaN` reports as `"float"`. -/
def getTypeOfValue : JsValue → String
  | .undefined => "undefined"
  | .jsnull => "null"
  | .arr _ => "array"
  | .bool _ => "boolean"
  | .str _ => "string"
  | .num none => "float"
  | .num (some q) => if q.den = 1 then "integer" else "float"
  | .node _ => "object"

/-- `OnvifSoap.prototype.isInvalidValue(value, type, allow_empty)`: returns an
error message, or `""` when the value is acceptable. -/
def isInvalidValue (value : JsValue) (ty : String) (allowEmpty : Bool := false) : String :=
  let vt := getTypeOfValue value
  let typeOk : Bool := if ty == "float" then vt == "float" || vt == "integer" else vt == ty
  if !typeOk then "The type of the value must be \"" ++ ty ++ "\"."
  else
    match value with
    | .arr l =>
        if !allowEmpty && l.length == 0 then "The value must not be an empty array." else ""
    | .str s =>
        if !allowEmpty && s == "" then "The value must not be an empty string."
        else if s.toList.any (fun c => c.toNat < 0x20 || 0x7e < c.toNat) then
          "The value must consist of ascii characters."
        else if s.toList.any (fun c => c == '<' || c == '>') then
          "Invalid characters were found in the value (\"<\", \">\")"
        else ""
    | _ => ""

/-- Credential normalization shared by the `OnvifServiceMedia` and
`OnvifServiceImaging` constructors: an absent `user`/`pass` property leaves
the default `""`; a present one is validated as a (possibly empty) string and
stored via `params[k] || ''`. -/
def serviceCredential (v : Option JsValue) (label : String) : Except String String :=
  match v with
  | none => .ok ""
  | some w =>
      let err := isInvalidValue w "string" true
      if err ≠ "" then .error ("The \"" ++ label ++ "\" property was invalid: " ++ err)
      else
        match w with
        | .str s => .ok s
        | _ => .ok ""

/-- `_createRequestSoap(body)` of the media/imaging service objects: the
stored credentials (always strings) and namespace list are passed to
`createRequestSoap`. -/
def serviceCreateRequestSoap (env : CryptoEnv) (user pass : String) (timeDiff : Int)
    (xmlns : List String) (body : String) : Except Unit String :=
  createRequestSoap env { body := body, xmlns := xmlns, diff := timeDiff,
                          user := user, pass := some pass }

theorem utf8Bytes_empty : utf8Bytes "" = [] := by decide

/-- A concrete crypto environment used to instantiate the digest theorems. -/
def sampleCryptoEnv : CryptoEnv :=
  { nowMs := 0,
    isoUTC := fun _ => "1970-01-01T00:00:00.000Z",
    sha1 := fun l => l,
    randomBytes16 := List.range 16 }

/-- C1: for every clock offset and password (and any username, which the
digest does not read), the token produced by `_generatePasswordDigest` has
`created` = the ISO-8601 UTC rendering of now + offset, `nonce` = the base64
encoding of the 16 random bytes, and `digest` =
base64(SHA-1(rawNonceBytes ++ UTF8(created) ++ UTF8(password))). -/
theorem generatePasswordDigest_matches_spec (env : CryptoEnv) (diff : Int) (pass : String)
    (hlen : env.randomBytes16.length = 16)
    (hbytes : ∀ x ∈ env.randomBytes16, x < 256) :
    env.randomBytes16.length = 16 ∧
    ∃ t, generatePasswordDigest env diff (some pass) = .ok t ∧
      t.date = env.isoUTC (env.nowMs + diff) ∧
      t.nonceBase64 = b64Encode env.randomBytes16 ∧
      t.digest = b64Encode (env.sha1 (env.randomBytes16 ++ utf8Bytes t.date ++ utf8Bytes pass)) := by
  refine ⟨hlen, _, rfl, rfl, rfl, ?_⟩
  simp only [generatePasswordDigest, b64Decode_b64Encode env.randomBytes16 hbytes]

/-- Witness for C1 at a concrete environment, offset and password. -/
theorem generatePasswordDigest_matches_spec_witness :
    sampleCryptoEnv.randomBytes16.length = 16 ∧
    ∃ t, generatePasswordDigest sampleCryptoEnv 250 (some "secret") = .ok t ∧
      t.date = sampleCryptoEnv.isoUTC (sampleCryptoEnv.nowMs + 250) ∧
      t.nonceBase64 = b64Encode sampleCryptoEnv.randomBytes16 ∧
      t.digest = b64Encode (sampleCryptoEnv.sha1
        (sampleCryptoEnv.randomBytes16 ++ utf8Bytes t.date ++ utf8Bytes "secret")) :=
  generatePasswordDigest_matches_spec sampleCryptoEnv 250 "secret" (by decide) (by decide)

/-- C7: with a non-empty username and an absent password, the envelope build
succeeds: the service constructors normalize the absent `pass` property to
`""`, the digest is computed over nonce ++ created ++ empty password bytes,
and the envelope carries the `<Security>` token in its header. -/
theorem absentPassword_envelope_built (env : CryptoEnv) (diff : Int) (user : String)
    (xmlns : List String) (body : String)
    (huser : user ≠ "")
    (hbytes : ∀ x ∈ env.randomBytes16, x < 256) :
    serviceCredential none "pass" = .ok "" ∧
    ∃ tok,
      createSoapUserToken env diff user (some "") = .ok tok ∧
      serviceCreateRequestSoap env user "" diff xmlns body =
        .ok (collapseTags (requestEnvelopeRaw xmlns tok body)) ∧
      (generatePasswordDigest env diff (some "")).map UserToken.digest =
        .ok (b64Encode (env.sha1
          (env.randomBytes16 ++ utf8Bytes (env.isoUTC (env.nowMs + diff))))) := by
  refine ⟨rfl, _, rfl, ?_, ?_⟩
  · simp only [serviceCreateRequestSoap, createRequestSoap, huser, if_neg huser,
      createSoapUserToken, generatePasswordDigest, Except.map]
    rfl
  · simp only [generatePasswordDigest, Except.map,
      b64Decode_b64Encode env.randomBytes16 hbytes, utf8Bytes_empty, List.append_nil]

/-- Witness for C7 at a concrete environment and username. -/
theorem absentPassword_envelope_built_witness :
    serviceCredential none "pass" = .ok "" ∧
    ∃ tok,
      createSoapUserToken sampleCryptoEnv 0 "admin" (some "") = .ok tok ∧
      serviceCreateRequestSoap sampleCryptoEnv "admin" "" 0
          ["xmlns:trt=\"http://www.onvif.org/ver10/media/wsdl\""] "<trt:GetProfiles/>" =
        .ok (collapseTags (requestEnvelopeRaw
          ["xmlns:trt=\"http://www.onvif.org/ver10/media/wsdl\""] tok "<trt:GetProfiles/>")) ∧
      (generatePasswordDigest sampleCryptoEnv 0 (some "")).map UserToken.digest =
        .ok (b64Encode (sampleCryptoEnv.sha1
          (sampleCryptoEnv.randomBytes16 ++
           utf8Bytes (sampleCryptoEnv.isoUTC (sampleCryptoEnv.nowMs + 0))))) :=
  absentPassword_envelope_built sampleCryptoEnv 0 "admin"
    ["xmlns:trt=\"http://www.onvif.org/ver10/media/wsdl\""] "<trt:GetProfiles/>"
    (by decide) (by decide)

/-! ### Transport routing (soap.js `requestCommand` / `_request`) -/

/-- The endpoint object (`url.parse` result plus port/protocol overrides)
passed to `requestCommand` by `getRequestParams()`. -/
structure Oxaddr where
  protocol : String
  hostname : String
  port : Option Nat
  pathname : String

/-- `GetDeviceInformationResponse` fields kept in `this.information` and
passed along as the `information` argument by the device-session callers. -/
structure DeviceInformation where
  manufacturer : String
  model : String := ""
  firmwareVersion : String := ""

structure HttpRequestOpts where
  protocol : String
  hostname : String
  port : Option Nat
  path : String
  httpMethod : String
  contentType : String

/-- The option object built by `OnvifSoap.prototype._request` (lines
108-120): the POST path is always `oxaddr.pathname`; nothing else feeds
into the target path. -/
def requestOpts (oxaddr : Oxaddr) (methodName : String) : HttpRequestOpts :=
  { protocol := oxaddr.protocol,
    hostname := oxaddr.hostname,
    port := oxaddr.port,
    path := oxaddr.pathname,
    httpMethod := "POST",
    contentType := "application/soap+xml;charset=utf-8;action=\"http://www.onvif.org/ver10/device/wsdl/" ++ methodName ++ "\"" }

/-- `OnvifSoap.prototype.requestCommand(oxaddr, method_name, soap)`: the JS
call sites (e.g. `getStreamUri`, `getProfiles`, the PTZ move/stop wrappers)
pass a fourth `information` argument carrying the device information, which
the three-parameter function silently drops; the HTTP options therefore come
from `_request(oxaddr, soap, method_name)` alone. -/
def requestCommandOpts (oxaddr : Oxaddr) (methodName : String) (soap : String)
    (information : Option DeviceInformation) : HttpRequestOpts :=
  requestOpts oxaddr methodName

/-- The device-service endpoint used in the C2 counterexample. -/
def standardOxaddr : Oxaddr :=
  { protocol := "http:", hostname := "192.168.0.10", port := some 80,
    pathname := "/onvif/device_service" }

/-- C2 counterexample: for a device whose manufacturer is any vendor string
at all, `GetProfiles`, `GetStreamUri` and the PTZ `ContinuousMove`/`Stop`
commands are still POSTed to the originally configured path
`/onvif/device_service` — not to a different URL path segment, because
`requestCommand` ignores the `information` argument. -/
theorem requestCommand_no_vendor_rerouting :
    (requestCommandOpts standardOxaddr "GetProfiles" "<soap/>"
        (some { manufacturer := "NonConformantVendor" })).path = standardOxaddr.pathname ∧
    (requestCommandOpts standardOxaddr "GetStreamUri" "<soap/>"
        (some { manufacturer := "NonConformantVendor" })).path = standardOxaddr.pathname ∧
    (requestCommandOpts standardOxaddr "ContinuousMove" "<soap/>"
        (some { manufacturer := "NonConformantVendor" })).path = standardOxaddr.pathname ∧
    (requestCommandOpts standardOxaddr "Stop" "<soap/>"
        (some { manufacturer := "NonConformantVendor" })).path = standardOxaddr.pathname :=
  ⟨rfl, rfl, rfl, rfl⟩

/-- C2 amended: for every endpoint, command and device information (any
manufacturer, or none), the request is sent to the originally configured
endpoint path unchanged; no (manufacturer, command) pair is rerouted. -/
theorem requestCommand_path_independent_of_information
    (oxaddr : Oxaddr) (methodName soap : String) (information : Option DeviceInformation) :
    (requestCommandOpts oxaddr methodName soap information).path = oxaddr.pathname ∧
    requestCommandOpts oxaddr methodName soap information =
      requestOpts oxaddr methodName :=
  ⟨rfl, rfl⟩

/-! ### Response handling (soap.js `_request` non-200 branch,
`_getFaultReason`, `_parseResponseResult`, `requestCommand`) -/

/-- The `try` block of `_request` (lines 153-158): read
`parsed.Body.Fault.Reason.Text`, unwrapping an attribute-bearing text node via
its `_` property; a TypeError anywhere leaves `msg` at its initial `''`
(and, when the `_`-unwrap itself throws on a `null` text, at the value
assigned so far). -/
def faultTextOf (parsed : JsValue) : JsValue :=
  match jsGetChain parsed ["Body", "Fault", "Reason", "Text"] with
  | .error _ => .str ""
  | .ok v =>
      if jsTypeof v == "object" then
        match jsGet v "_" with
        | .error _ => v
        | .ok w => w
      else v

/-- The error message `_request` rejects with on a non-200 status: the fault
reason is appended to `code ++ " " ++ statusMessage` when the body parsed and
carries a truthy reason text; otherwise the status line alone.  `body = none`
models an empty response body or one the XML parser rejected. -/
def non200Message (statusCode : Nat) (statusText : String) (body : Option JsValue) : String :=
  let base := toString statusCode ++ " " ++ statusText
  match body with
  | none => base
  | some parsed =>
      let msg := faultTextOf parsed
      if jsTruthy msg then base ++ " - " ++ jsToString msg else base

/-- The settlement of the `_request` promise as a function of the HTTP
status, status message and (parsed) body. -/
def requestOutcome (statusCode : Nat) (statusText : String) (rawXml : String)
    (body : Option JsValue) : Except String String :=
  if statusCode = 200 then .ok rawXml
  else .error (non200Message statusCode statusText body)

/-- C5: a non-200 response whose body parses as a SOAP fault with a non-empty
reason text rejects with `code status - reason` — a message that carries the
fault reason and is distinct from the bare status line — while a non-200
response with no fault text (or no parsable body at all) rejects with the
status line alone. -/
theorem non200_fault_reason_precedence
    (statusCode : Nat) (statusText rawXml reason : String) (parsedFault parsedPlain : JsValue)
    (hcode : statusCode ≠ 200)
    (hreason : jsGetChain parsedFault ["Body", "Fault", "Reason", "Text"] = .ok (.str reason))
    (hne : reason ≠ "")
    (hplain : jsTruthy (faultTextOf parsedPlain) = false) :
    requestOutcome statusCode statusText rawXml (some parsedFault) =
      .error (toString statusCode ++ " " ++ statusText ++ " - " ++ reason) ∧
    (toString statusCode ++ " " ++ statusText ++ " - " ++ reason) ≠
      (toString statusCode ++ " " ++ statusText) ∧
    requestOutcome statusCode statusText rawXml (some parsedPlain) =
      .error (toString statusCode ++ " " ++ statusText) ∧
    requestOutcome statusCode statusText rawXml none =
      .error (toString statusCode ++ " " ++ statusText) := by
  have hfault : faultTextOf parsedFault = .str reason := by
    simp [faultTextOf, hreason, jsTypeof]
  refine ⟨?_, ?_, ?_, ?_⟩
  · simp [requestOutcome, hcode, non200Message, hfault, jsTruthy, jsToString, hne]
  · intro h
    have h2 := congrArg String.length h
    have h3 : (" - ").length = 3 := rfl
    have hr : reason.length ≠ 0 := by
      intro h0
      apply hne
      cases reason with
      | mk data =>
          rw [String.length_mk] at h0
          rw [List.length_eq_zero.mp h0]
    simp only [String.length_append, h3] at h2
    omega
  · simp [requestOutcome, hcode, non200Message, hplain]
  · simp [requestOutcome, hcode, non200Message]

/-- Witness for C5: HTTP 500 with a "Sender not authorized" fault body versus
a fault-free body. -/
theorem non200_fault_reason_precedence_witness :
    requestOutcome 500 "Internal Server Error" "<xml/>"
        (some (.node [("Body", .node [("Fault", .node [("Reason",
          .node [("Text", .str "Sender not authorized")])])])])) =
      .error ("500" ++ " " ++ "Internal Server Error" ++ " - " ++ "Sender not authorized") ∧
    ("500" ++ " " ++ "Internal Server Error" ++ " - " ++ "Sender not authorized") ≠
      ("500" ++ " " ++ "Internal Server Error") ∧
    requestOutcome 500 "Internal Server Error" "<xml/>"
        (some (.node [("Body", .node [("GetProfilesResponse", .str "")])])) =
      .error ("500" ++ " " ++ "Internal Server Error") ∧
    requestOutcome 500 "Internal Server Error" "<xml/>" none =
      .error ("500" ++ " " ++ "Internal Server Error") :=
  non200_fault_reason_precedence 500 "Internal Server Error" "<xml/>"
    "Sender not authorized"
    (.node [("Body", .node [("Fault", .node [("Reason",
       .node [("Text", .str "Sender not authorized")])])])])
    (.node [("Body", .node [("GetProfilesResponse", .str "")])])
    (by decide) rfl (by decide) rfl

theorem exceptBind_ok {ε α β : Type} (a : α) (f : α → Except ε β) :
    (Except.ok a >>= f : Except ε β) = f a := rfl

theorem exceptPure {ε α : Type} (a : α) : (pure a : Except ε α) = .ok a := rfl

theorem jsTruthy_node (fs : List (String × JsValue)) : jsTruthy (.node fs) = true := rfl

theorem jsTruthy_undef : jsTruthy .undefined = false := rfl

theorem jsTruthy_jsnull : jsTruthy .jsnull = false := rfl

/-- The JS `in` operator `k in v`: key membership on objects, `false` for the
(non-index, non-length) keys used here on arrays, and a TypeError on
primitives. -/
def jsHasKey (v : JsValue) (k : String) : Except Unit Bool :=
  match v with
  | .node fields => .ok (fields.any (fun kv => kv.fst == k))
  | .arr _ => .ok false
  | _ => .error ()

/-- `OnvifSoap.prototype._parseResponseResult(method_name, res)`: yields the
`Body` subtree when it holds a `${method_name}Response` key; a falsy `Body`
returns `null`, and the `else` branch (whose `return` is missing in the
source) falls through to `undefined`. -/
def parseResponseResult (methodName : String) (res : JsValue) : Except Unit JsValue := do
  let s0 ← jsGet res "Body"
  if !jsTruthy s0 then return .jsnull
  let has ← jsHasKey s0 (methodName ++ "Response")
  if has then return s0 else return .undefined

/-- `OnvifSoap.prototype._getFaultReason(r)`: prefer `Body.Fault.Reason.Text`;
fall back to `Body.Fault.Code.Value` (plus `Subcode.Value` when readable); a
TypeError caught before any assignment leaves the initial `''`, one caught
after the `Code.Value` assignment keeps that value. -/
def getFaultReason (r : JsValue) : JsValue :=
  match jsGetChain r ["Body", "Fault", "Reason"] with
  | .error _ => .str ""
  | .ok reasonEl =>
      match jsGet reasonEl "Text" with
      | .error _ => .str ""
      | .ok t =>
          if jsTruthy t then t
          else
            match jsGetChain r ["Body", "Fault", "Code"] with
            | .error _ => .str ""
            | .ok codeEl =>
                match jsGet codeEl "Value" with
                | .error _ => .str ""
                | .ok v =>
                    if !jsTruthy v then .str ""
                    else
                      match jsGet codeEl "Subcode" with
                      | .error _ => v
                      | .ok subEl =>
                          match jsGet subEl "Value" with
                          | .error _ => v
                          | .ok sv =>
                              if jsTruthy sv then
                                .str (jsToString v ++ " " ++ jsToString sv)
                              else v

/-- How `requestCommand` settles once `_request` resolved with a 200 body that
parsed to `result`: fault check first, then `_parseResponseResult`; `thrown`
marks an exception escaping to the outer `.catch` (rejecting with the raw
error). -/
inductive CommandOutcome where
  | resolved (data : JsValue)
  | faultRejected (reason : String)
  | unsupportedRejected (message : String)
  | thrown

def requestCommand200 (methodName : String) (result : JsValue) : CommandOutcome :=
  let fault := getFaultReason result
  if jsTruthy fault then .faultRejected (jsToString fault)
  else
    match parseResponseResult methodName result with
    | .error _ => .thrown
    | .ok parsed =>
        if jsTruthy parsed then .resolved parsed
        else .unsupportedRejected
          ("The device seems to not support the " ++ methodName ++ "() method.")

/-- C8: on a fault-free 200 response whose `Body` is an object, the command
resolves with the whole `Body` subtree exactly when the subtree carries a
`${method}Response` key, and otherwise rejects with the
"device seems to not support the method()" error; a response whose `Body` is
missing or empty is likewise rejected as unsupported. -/
theorem parseResponseResult_dichotomy (m : String) (tree treeNoBody : JsValue)
    (fields : List (String × JsValue)) (bodyless : JsValue)
    (hfault : jsTruthy (getFaultReason tree) = false)
    (hbody : jsGet tree "Body" = .ok (.node fields))
    (hfault2 : jsTruthy (getFaultReason treeNoBody) = false)
    (hbody2 : jsGet treeNoBody "Body" = .ok bodyless)
    (hfalsy : jsTruthy bodyless = false) :
    (fields.any (fun kv => kv.fst == m ++ "Response") = true →
      requestCommand200 m tree = .resolved (.node fields)) ∧
    (fields.any (fun kv => kv.fst == m ++ "Response") = false →
      requestCommand200 m tree = .unsupportedRejected
        ("The device seems to not support the " ++ m ++ "() method.")) ∧
    requestCommand200 m treeNoBody = .unsupportedRejected
      ("The device seems to not support the " ++ m ++ "() method.") := by
  refine ⟨?_, ?_, ?_⟩
  · intro hk
    simp [requestCommand200, hfault, parseResponseResult, hbody, jsHasKey, hk,
      exceptBind_ok, exceptPure, jsTruthy_node]
  · intro hk
    simp [requestCommand200, hfault, parseResponseResult, hbody, jsHasKey, hk,
      exceptBind_ok, exceptPure, jsTruthy_node, jsTruthy_undef]
  · simp [requestCommand200, hfault2, parseResponseResult, hbody2, hfalsy,
      exceptBind_ok, exceptPure, jsTruthy_jsnull]

/-- Witness for C8: a body carrying `GetProfilesResponse` resolves for
`GetProfiles` and is rejected as unsupported for `GetStreamUri`; a body-less
tree is rejected as unsupported. -/
theorem parseResponseResult_dichotomy_witness :
    ((([("GetProfilesResponse", JsValue.str "x")] : List (String × JsValue)).any
        (fun kv => kv.fst == "GetProfiles" ++ "Response") = true →
      requestCommand200 "GetProfiles"
          (.node [("Body", .node [("GetProfilesResponse", JsValue.str "x")])]) =
        .resolved (.node [("GetProfilesResponse", JsValue.str "x")])) ∧
    (([("GetProfilesResponse", JsValue.str "x")] : List (String × JsValue)).any
        (fun kv => kv.fst == "GetProfiles" ++ "Response") = false →
      requestCommand200 "GetProfiles"
          (.node [("Body", .node [("GetProfilesResponse", JsValue.str "x")])]) =
        .unsupportedRejected
          ("The device seems to not support the " ++ "GetProfiles" ++ "() method.")) ∧
    requestCommand200 "GetProfiles" (.node [("Other", JsValue.str "y")]) =
      .unsupportedRejected
        ("The device seems to not support the " ++ "GetProfiles" ++ "() method.")) ∧
    requestCommand200 "GetStreamUri"
        (.node [("Body", .node [("GetProfilesResponse", JsValue.str "x")])]) =
      .unsupportedRejected
        ("The device seems to not support the " ++ "GetStreamUri" ++ "() method.") := by
  constructor
  · exact parseResponseResult_dichotomy "GetProfiles"
      (.node [("Body", .node [("GetProfilesResponse", JsValue.str "x")])])
      (.node [("Other", JsValue.str "y")])
      [("GetProfilesResponse", JsValue.str "x")] .undefined
      rfl rfl rfl rfl rfl
  · exact (parseResponseResult_dichotomy "GetStreamUri"
      (.node [("Body", .node [("GetProfilesResponse", JsValue.str "x")])])
      (.node [("Other", JsValue.str "y")])
      [("GetProfilesResponse", JsValue.str "x")] .undefined
      rfl rfl rfl rfl rfl).2.1 (by decide)

/-! ### Profile normalization (device.js `_mediaGetProfiles`, lines 571-698) -/

theorem jsGet_node (fs : List (String × JsValue)) (k : String) :
    jsGet (.node fs) k = .ok (jsLookup fs k) := rfl

/-- One PTZ axis limit; `none` components model `NaN` results of
`parseFloat`. -/
structure RangeRec where
  min : Option Rat
  max : Option Rat
deriving DecidableEq

/-- The initial value `{min: 0, max: 0}` of each axis. -/
def defaultRange : RangeRec := { min := some 0, max := some 0 }

structure PtzRanges where
  x : RangeRec
  y : RangeRec
  z : RangeRec
deriving DecidableEq

def defaultPtzRanges : PtzRanges :=
  { x := defaultRange, y := defaultRange, z := defaultRange }

structure BoundsRec where
  width : Option Int
  height : Option Int
  x : Option Int
  y : Option Int

structure VideoSourceRec where
  token : JsValue
  name : JsValue
  bounds : BoundsRec

structure ResolutionRec where
  width : Option Int
  height : Option Int

structure VideoEncoderRec where
  token : JsValue
  name : JsValue
  resolution : ResolutionRec
  quality : Option Int
  framerate : Option Int
  bitrate : Option Int
  encoding : JsValue

structure AudioSourceRec where
  token : JsValue
  name : JsValue

structure AudioEncoderRec where
  token : JsValue
  name : JsValue
  bitrate : Option Int
  samplerate : Option Int
  encoding : JsValue

/-- The normalized profile object `_mediaGetProfiles` builds for each raw
profile entry. -/
structure NormProfile where
  token : JsValue
  name : JsValue
  snapshot : String
  streamUdp : String
  streamHttp : String
  streamRtsp : String
  videoSource : Option VideoSourceRec
  videoEncoder : Option VideoEncoderRec
  audioSource : Option AudioSourceRec
  audioEncoder : Option AudioEncoderRec
  ptz : PtzRanges

/-- One of the three `try { ... } catch (e) {}` blocks around the PTZ range
parsing: a TypeError inside the block (a property access on `undefined`)
leaves the axis at its default (`none` here); otherwise both bounds are
assigned the `parseFloat` results, `NaN` included. -/
def tryRange (ptzCfg : JsValue) (limitsKey rangeKey : String) : Option RangeRec :=
  match (do
    let r ← jsGetChain ptzCfg [limitsKey, "Range"]
    let xr ← jsGet r rangeKey
    let mn ← jsGet xr "Min"
    let mx ← jsGet xr "Max"
    pure { min := parseFloatJs mn, max := parseFloatJs mx } : Except Unit RangeRec) with
  | .error _ => none
  | .ok rg => some rg

/-- Normalization of one raw profile entry (the body of the `forEach` in
`_mediaGetProfiles`): an uncaught TypeError (property access on `undefined`)
escapes as `Except.error`; the PTZ axis failures alone are swallowed
per-axis by `tryRange`. -/
def profileOf (p : JsValue) : Except Unit NormProfile := do
  let dollar ← jsGet p "$"
  let token ← jsGet dollar "token"
  let name ← jsGet p "Name"
  let vsc ← jsGet p "VideoSourceConfiguration"
  let videoSource ←
    if jsTruthy vsc then do
      let vd ← jsGet vsc "$"
      let vtoken ← jsGet vd "token"
      let vname ← jsGet vsc "Name"
      let bounds ← jsGet vsc "Bounds"
      let bd ← jsGet bounds "$"
      let bw ← jsGet bd "width"
      let bh ← jsGet bd "height"
      let bx ← jsGet bd "x"
      let byv ← jsGet bd "y"
      pure (some { token := vtoken, name := vname,
                   bounds := { width := parseIntJs bw, height := parseIntJs bh,
                               x := parseIntJs bx, y := parseIntJs byv } : VideoSourceRec })
    else pure none
  let vec ← jsGet p "VideoEncoderConfiguration"
  let vecRes ← if jsTruthy vec then jsGet vec "Resolution" else pure .undefined
  let videoEncoder ←
    if jsTruthy vec && jsTruthy vecRes then do
      let ed ← jsGet vec "$"
      let etoken ← jsGet ed "token"
      let ename ← jsGet vec "Name"
      let rw ← jsGet vecRes "Width"
      let rh ← jsGet vecRes "Height"
      let quality ← jsGet vec "Quality"
      let rc ← jsGet vec "RateControl"
      let fr ← jsGet rc "FrameRateLimit"
      let br ← jsGet rc "BitrateLimit"
      let enc ← jsGet vec "Encoding"
      pure (some { token := etoken, name := ename,
                   resolution := { width := parseIntJs rw, height := parseIntJs rh },
                   quality := parseIntJs quality, framerate := parseIntJs fr,
                   bitrate := parseIntJs br, encoding := enc : VideoEncoderRec })
    else pure none
  let asc ← jsGet p "AudioSourceConfiguration"
  let audioSource ←
    if jsTruthy asc then do
      let ad ← jsGet asc "$"
      let atoken ← jsGet ad "token"
      let aname ← jsGet asc "Name"
      pure (some { token := atoken, name := aname : AudioSourceRec })
    else pure none
  let aec ← jsGet p "AudioEncoderConfiguration"
  let audioEncoder ←
    if jsTruthy aec then do
      let hasDollar ← jsHasKey aec "$"
      let aetoken ←
        if hasDollar then do
          let ad2 ← jsGet aec "$"
          jsGet ad2 "token"
        else pure (.str "")
      let aename ← jsGet aec "Name"
      let abr ← jsGet aec "Bitrate"
      let asr ← jsGet aec "SampleRate"
      let aenc ← jsGet aec "Encoding"
      pure (some { token := aetoken, name := aename, bitrate := parseIntJs abr,
                   samplerate := parseIntJs asr, encoding := aenc : AudioEncoderRec })
    else pure none
  let ptzCfg ← jsGet p "PTZConfiguration"
  let ptz :=
    if jsTruthy ptzCfg then
      { x := (tryRange ptzCfg "PanTiltLimits" "XRange").getD defaultRange,
        y := (tryRange ptzCfg "PanTiltLimits" "YRange").getD defaultRange,
        z := (tryRange ptzCfg "ZoomLimits" "XRange").getD defaultRange : PtzRanges }
    else defaultPtzRanges
  pure { token := token, name := name, snapshot := "",
         streamUdp := "", streamHttp := "", streamRtsp := "",
         videoSource := videoSource, videoEncoder := videoEncoder,
         audioSource := audioSource, audioEncoder := audioEncoder, ptz := ptz }

/-- The session fields `_mediaGetProfiles` mutates. -/
structure MediaProfilesState where
  profileList : List NormProfile
  currentProfile : Option NormProfile

/-- `[].concat(profiles)`: an array is spread, anything else becomes a
one-element list. -/
def concatSingle : JsValue → List JsValue
  | .arr l => l
  | v => [v]

/-- Settlement of the `_mediaGetProfiles` promise: `hung` marks an exception
thrown inside the service callback (the promise then never settles). -/
inductive InitStepOutcome where
  | resolved (st : MediaProfilesState)
  | rejected (message : String)
  | hung

/-- `OnvifDevice.prototype._mediaGetProfiles` acting on the `data` tree of a
successful `GetProfiles` command: a falsy `Profiles` field rejects with the
fatal initialization error; otherwise every entry is normalized and pushed,
and the first entry becomes the current profile when none is set. -/
def mediaGetProfiles (st : MediaProfilesState) (data : JsValue) : InitStepOutcome :=
  match jsGetChain data ["GetProfilesResponse", "Profiles"] with
  | .error _ => .hung
  | .ok profiles =>
      if !jsTruthy profiles then
        .rejected "Failed to initialize the device: The targeted device does not any media profiles."
      else
        match (concatSingle profiles).mapM profileOf with
        | .error _ => .hung
        | .ok profs =>
            .resolved (profs.foldl (fun acc prof =>
              { profileList := acc.profileList ++ [prof],
                currentProfile :=
                  match acc.currentProfile with
                  | none => some prof
                  | some c => some c }) st)

/-- C3 counterexample: a `GetProfilesResponse` whose `Profiles` field is an
empty list is NOT rejected — `!profiles` is false for an (truthy) empty JS
array, so `_mediaGetProfiles` resolves with zero profiles and no current
profile. -/
theorem mediaGetProfiles_empty_list_resolves :
    mediaGetProfiles { profileList := [], currentProfile := none }
        (.node [("GetProfilesResponse", .node [("Profiles", .arr [])])]) =
      .resolved { profileList := [], currentProfile := none } := rfl

/-- C3 amended: a missing (or otherwise falsy) `Profiles` field rejects with
the fatal initialization error, but an empty `Profiles` array is accepted:
the step resolves leaving the session state unchanged (zero profiles, no
current profile), so initialization completes with zero profiles. -/
theorem mediaGetProfiles_missing_fatal_empty_accepted
    (st : MediaProfilesState) (data profiles : JsValue)
    (hget : jsGetChain data ["GetProfilesResponse", "Profiles"] = .ok profiles)
    (hfalsy : jsTruthy profiles = false) :
    mediaGetProfiles st data =
      .rejected "Failed to initialize the device: The targeted device does not any media profiles." ∧
    ∀ st2 : MediaProfilesState,
      mediaGetProfiles st2 (.node [("GetProfilesResponse", .node [("Profiles", .arr [])])]) =
        .resolved st2 := by
  constructor
  · simp [mediaGetProfiles, hget, hfalsy]
  · intro st2
    rfl

/-- Witness for C3's amended statement: a response with no `Profiles` key is
rejected; the empty-array response resolves. -/
theorem mediaGetProfiles_missing_fatal_empty_accepted_witness :
    mediaGetProfiles { profileList := [], currentProfile := none }
        (.node [("GetProfilesResponse", .node [])]) =
      .rejected "Failed to initialize the device: The targeted device does not any media profiles." ∧
    ∀ st2 : MediaProfilesState,
      mediaGetProfiles st2 (.node [("GetProfilesResponse", .node [("Profiles", .arr [])])]) =
        .resolved st2 :=
  mediaGetProfiles_missing_fatal_empty_accepted
    { profileList := [], currentProfile := none }
    (.node [("GetProfilesResponse", .node [])]) .undefined rfl rfl

/-- A raw profile entry whose `XRange` is present but malformed (a bare text
node instead of a `{Min, Max}` element), with well-formed `YRange` and zoom
range. -/
def c6profile : JsValue :=
  .node [("$", .node [("token", .str "t1")]),
         ("Name", .str "P1"),
         ("PTZConfiguration", .node [
            ("PanTiltLimits", .node [("Range", .node [
               ("XRange", .str "broken"),
               ("YRange", .node [("Min", .str "-1"), ("Max", .str "1")])])]),
            ("ZoomLimits", .node [("Range", .node [
               ("XRange", .node [("Min", .str "0"), ("Max", .str "1")])])])])]

/-- C6 counterexample: on a profile whose `XRange` is present but unparsable,
the X axis does NOT keep its `{min:0, max:0}` default — `parseFloat` returns
`NaN` for both bounds (no exception is thrown, so the `catch` never restores
the default), while the Y and Z ranges of the same profile parse correctly. -/
theorem profileOf_malformed_xrange_nan :
    profileOf c6profile = .ok
      { token := .str "t1", name := .str "P1", snapshot := "",
        streamUdp := "", streamHttp := "", streamRtsp := "",
        videoSource := none, videoEncoder := none,
        audioSource := none, audioEncoder := none,
        ptz := { x := { min := none, max := none },
                 y := { min := some (-1), max := some 1 },
                 z := { min := some 0, max := some 1 } } } ∧
    ({ min := none, max := none } : RangeRec) ≠ defaultRange :=
  ⟨rfl, by decide⟩

/-- C6 amended: (1) a profile entry lacking `PTZConfiguration` normalizes
without error and all three PTZ ranges keep their `{min:0, max:0}` defaults;
(2) when the `XRange` element is absent (so reading its bounds throws and the
`catch` keeps the default), the X range stays at its default while valid Y
and Z ranges of the same profile are parsed independently; (3) when `XRange`
is present but unparsable, both X bounds become `NaN` rather than the
default, Y and Z still parsing correctly. -/
theorem profileOf_ptz_range_tolerance :
    (∀ (pf df : List (String × JsValue)),
      jsLookup pf "$" = .node df →
      jsTruthy (jsLookup pf "VideoSourceConfiguration") = false →
      jsTruthy (jsLookup pf "VideoEncoderConfiguration") = false →
      jsTruthy (jsLookup pf "AudioSourceConfiguration") = false →
      jsTruthy (jsLookup pf "AudioEncoderConfiguration") = false →
      jsTruthy (jsLookup pf "PTZConfiguration") = false →
      profileOf (.node pf) = .ok
        { token := jsLookup df "token", name := jsLookup pf "Name", snapshot := "",
          streamUdp := "", streamHttp := "", streamRtsp := "",
          videoSource := none, videoEncoder := none,
          audioSource := none, audioEncoder := none,
          ptz := defaultPtzRanges }) ∧
    (∀ (ptzCfg : JsValue) (rng zrng yr zr : List (String × JsValue)),
      jsTruthy ptzCfg = true →
      jsGetChain ptzCfg ["PanTiltLimits", "Range"] = .ok (.node rng) →
      jsLookup rng "XRange" = .undefined →
      jsLookup rng "YRange" = .node yr →
      jsGetChain ptzCfg ["ZoomLimits", "Range"] = .ok (.node zrng) →
      jsLookup zrng "XRange" = .node zr →
      tryRange ptzCfg "PanTiltLimits" "XRange" = none ∧
      tryRange ptzCfg "PanTiltLimits" "YRange" =
        some { min := parseFloatJs (jsLookup yr "Min"),
               max := parseFloatJs (jsLookup yr "Max") } ∧
      tryRange ptzCfg "ZoomLimits" "XRange" =
        some { min := parseFloatJs (jsLookup zr "Min"),
               max := parseFloatJs (jsLookup zr "Max") }) ∧
    (profileOf c6profile).map (fun prof => prof.ptz) = .ok
      { x := { min := none, max := none },
        y := { min := some (-1), max := some 1 },
        z := { min := some 0, max := some 1 } } := by
  refine ⟨?_, ?_, rfl⟩
  · intro pf df hd hvsc hvec hasc haec hptz
    simp only [profileOf, jsGet_node, exceptBind_ok, hd, hvsc, hvec, hasc, haec, hptz,
      Bool.false_eq_true, if_false, Bool.false_and, exceptPure]
  · intro ptzCfg rng zrng yr zr htr hpan hxr hyr hzoom hzxr
    refine ⟨?_, ?_, ?_⟩
    · simp only [tryRange, hpan, exceptBind_ok, jsGet_node, hxr]
      rfl
    · simp only [tryRange, hpan, exceptBind_ok, jsGet_node, hyr, exceptPure]
    · simp only [tryRange, hzoom, exceptBind_ok, jsGet_node, hzxr, exceptPure]

/-- Witness for C6's amended statement at concrete profiles. -/
theorem profileOf_ptz_range_tolerance_witness :
    profileOf (.node [("$", .node [("token", .str "t0")]), ("Name", .str "P0")]) = .ok
      { token := jsLookup [("token", JsValue.str "t0")] "token",
        name := jsLookup [("$", JsValue.node [("token", JsValue.str "t0")]),
                          ("Name", JsValue.str "P0")] "Name",
        snapshot := "", streamUdp := "", streamHttp := "", streamRtsp := "",
        videoSource := none, videoEncoder := none,
        audioSource := none, audioEncoder := none,
        ptz := defaultPtzRanges } ∧
    (tryRange (.node [("PanTiltLimits", .node [("Range", .node [
          ("YRange", .node [("Min", .str "-1"), ("Max", .str "1")])])]),
        ("ZoomLimits", .node [("Range", .node [
          ("XRange", .node [("Min", .str "0"), ("Max", .str "1")])])])])
        "PanTiltLimits" "XRange" = none ∧
      tryRange (.node [("PanTiltLimits", .node [("Range", .node [
          ("YRange", .node [("Min", .str "-1"), ("Max", .str "1")])])]),
        ("ZoomLimits", .node [("Range", .node [
          ("XRange", .node [("Min", .str "0"), ("Max", .str "1")])])])])
        "PanTiltLimits" "YRange" =
        some { min := parseFloatJs (jsLookup [("Min", JsValue.str "-1"),
                         ("Max", JsValue.str "1")] "Min"),
               max := parseFloatJs (jsLookup [("Min", JsValue.str "-1"),
                         ("Max", JsValue.str "1")] "Max") } ∧
      tryRange (.node [("PanTiltLimits", .node [("Range", .node [
          ("YRange", .node [("Min", .str "-1"), ("Max", .str "1")])])]),
        ("ZoomLimits", .node [("Range", .node [
          ("XRange", .node [("Min", .str "0"), ("Max", .str "1")])])])])
        "ZoomLimits" "XRange" =
        some { min := parseFloatJs (jsLookup [("Min", JsValue.str "0"),
                         ("Max", JsValue.str "1")] "Min"),
               max := parseFloatJs (jsLookup [("Min", JsValue.str "0"),
                         ("Max", JsValue.str "1")] "Max") }) :=
  ⟨profileOf_ptz_range_tolerance.1
      [("$", .node [("token", .str "t0")]), ("Name", .str "P0")]
      [("token", .str "t0")] rfl rfl rfl rfl rfl rfl,
   profileOf_ptz_range_tolerance.2.1
      (.node [("PanTiltLimits", .node [("Range", .node [
          ("YRange", .node [("Min", .str "-1"), ("Max", .str "1")])])]),
        ("ZoomLimits", .node [("Range", .node [
          ("XRange", .node [("Min", .str "0"), ("Max", .str "1")])])])])
      [("YRange", .node [("Min", .str "-1"), ("Max", .str "1")])]
      [("XRange", .node [("Min", .str "0"), ("Max", .str "1")])]
      [("Min", .str "-1"), ("Max", .str "1")]
      [("Min", .str "0"), ("Max", .str "1")]
      rfl rfl rfl rfl rfl rfl⟩

/-! ### Imaging operations and current-profile save/restore
(device.js `changeProfile`, `getImagingSettings`, `setImagingSettings`) -/

/-- The device-session fields the imaging operations read and write. -/
structure DevSession where
  profileList : List NormProfile
  currentProfile : Option NormProfile
  hasImaging : Bool

/-- `OnvifDevice.prototype.changeProfile(index)`: a non-negative integer
selects by position, a non-empty string selects by token, anything else (or a
failed lookup) leaves the current profile unchanged and returns null.  (The
source returns `this.getCurrentProfile()`, a deep copy; only the state effect
matters here.) -/
def changeProfile (s : DevSession) (index : JsValue) : DevSession × Option NormProfile :=
  match index with
  | .num (some q) =>
      if 0 ≤ q ∧ q.den = 1 then
        match s.profileList.get? q.num.toNat with
        | some p => ({ s with currentProfile := some p }, some p)
        | none => (s, none)
      else (s, none)
  | .str t =>
      if t.length > 0 then
        match s.profileList.find? (fun p =>
            match p.token with | .str u => u == t | _ => false) with
        | some p => ({ s with currentProfile := some p }, some p)
        | none => (s, none)
      else (s, none)
  | _ => (s, none)

/-- A profile as returned by `getProfilesFromDevice()`. -/
structure VscRec where
  sourceToken : JsValue

structure DevProfile where
  videoSourceConfiguration : Option VscRec

/-- The argument normalization shared by the imaging operations: an
`undefined` profile index defaults to 0. -/
def normalizeProfileIndex : JsValue → JsValue
  | .undefined => .num (some 0)
  | v => v

/-- The guard `typeof profileIndex !== 'number' || profileIndex < 0 ||
profileIndex >= this.profile_list.length` (note that `NaN` passes both
comparisons). -/
def indexAcceptable (profileIndex : JsValue) (len : Nat) : Bool :=
  match profileIndex with
  | .num (some q) => !(q < 0 : Bool) && !((len : Rat) ≤ q : Bool)
  | .num none => true
  | _ => false

def invalidIndexMsg (profileIndex : JsValue) (len : Nat) : String :=
  "Invalid profile index: " ++ jsToString profileIndex ++
  ". Must be between 0 and " ++ toString ((len : Int) - 1)

def noVscMsg (profileIndex : JsValue) : String :=
  "No video source configuration found for profile " ++ jsToString profileIndex

/-- `profiles[profileIndex] || profiles[0]` (profile objects are truthy). -/
def profileAt (profiles : List DevProfile) (idx : JsValue) : Option DevProfile :=
  let direct :=
    match idx with
    | .num (some q) => if 0 ≤ q ∧ q.den = 1 then profiles.get? q.num.toNat else none
    | _ => none
  match direct with
  | some p => some p
  | none => profiles.get? 0

/-- `OnvifDevice.prototype.getImagingSettings(profileIndex)` as a state
transformer.  The two network steps — `getProfilesFromDevice()` and the
imaging service call — are parameters (`profilesOutcome`, `imagingOutcome`):
the theorem quantifies over both resolutions and rejections.  Every path
after the `changeProfile` call restores `originalProfile`. -/
def getImagingSettingsFlow (s : DevSession) (profileIndexArg : JsValue)
    (profilesOutcome : Except String (List DevProfile))
    (imagingOutcome : Except String JsValue) : DevSession × Except String JsValue :=
  let profileIndex := normalizeProfileIndex profileIndexArg
  if !indexAcceptable profileIndex s.profileList.length then
    (s, .error (invalidIndexMsg profileIndex s.profileList.length))
  else
    let originalProfile := s.currentProfile
    let s1 := (changeProfile s profileIndex).1
    if !s.hasImaging then
      ({ s1 with currentProfile := originalProfile }, .error "The device does not support imaging.")
    else
      match profilesOutcome with
      | .error e => ({ s1 with currentProfile := originalProfile }, .error e)
      | .ok profiles =>
          match profileAt profiles profileIndex with
          | none =>
              ({ s1 with currentProfile := originalProfile }, .error (noVscMsg profileIndex))
          | some prof =>
              match prof.videoSourceConfiguration with
              | none =>
                  ({ s1 with currentProfile := originalProfile },
                   .error (noVscMsg profileIndex))
              | some vsc =>
                  match vsc.sourceToken with
                  | .jsnull =>
                      ({ s1 with currentProfile := originalProfile },
                       .error "Could not find video source token")
                  | .undefined =>
                      ({ s1 with currentProfile := originalProfile },
                       .error "Could not find video source token")
                  | _ =>
                      match imagingOutcome with
                      | .error e => ({ s1 with currentProfile := originalProfile }, .error e)
                      | .ok r => ({ s1 with currentProfile := originalProfile }, .ok r)

/-- `OnvifDevice.prototype.setImagingSettings(params, profileIndex)`: params
check, index check, save/changeProfile, imaging check, a nested
`getImagingSettings` call (whose result the logging line dereferences — a
TypeError there is caught and still restores), a second
`getProfilesFromDevice()`, the token lookup and the imaging `set` call. -/
def setImagingSettingsFlow (s : DevSession) (params : JsValue) (profileIndexArg : JsValue)
    (getProfilesOutcome1 getProfilesOutcome2 : Except String (List DevProfile))
    (getImagingOutcome setOutcome : Except String JsValue) :
    DevSession × Except String JsValue :=
  let profileIndex := normalizeProfileIndex profileIndexArg
  if !(match params with | .node _ => true | .arr _ => true | _ => false) then
    (s, .error "The first argument must be an object.")
  else if !indexAcceptable profileIndex s.profileList.length then
    (s, .error (invalidIndexMsg profileIndex s.profileList.length))
  else
    let originalProfile := s.currentProfile
    let s1 := (changeProfile s profileIndex).1
    if !s.hasImaging then
      ({ s1 with currentProfile := originalProfile }, .error "The device does not support imaging.")
    else
      let nested := getImagingSettingsFlow s1 profileIndex getProfilesOutcome1 getImagingOutcome
      let s2 := nested.1
      match nested.2 with
      | .error e => ({ s2 with currentProfile := originalProfile }, .error e)
      | .ok currentSettings =>
          match jsGetChain currentSettings
              ["data", "GetImagingSettingsResponse", "ImagingSettings"] with
          | .error _ => ({ s2 with currentProfile := originalProfile }, .error "TypeError")
          | .ok _ =>
              match getProfilesOutcome2 with
              | .error e => ({ s2 with currentProfile := originalProfile }, .error e)
              | .ok profiles =>
                  match profileAt profiles profileIndex with
                  | none =>
                      ({ s2 with currentProfile := originalProfile },
                       .error (noVscMsg profileIndex))
                  | some prof =>
                      match prof.videoSourceConfiguration with
                      | none =>
                          ({ s2 with currentProfile := originalProfile },
                           .error (noVscMsg profileIndex))
                      | some vsc =>
                          match vsc.sourceToken with
                          | .jsnull =>
                              ({ s2 with currentProfile := originalProfile },
                               .error "Could not find video source token")
                          | .undefined =>
                              ({ s2 with currentProfile := originalProfile },
                               .error "Could not find video source token")
                          | _ =>
                              match setOutcome with
                              | .error e =>
                                  ({ s2 with currentProfile := originalProfile }, .error e)
                              | .ok r =>
                                  ({ s2 with currentProfile := originalProfile }, .ok r)

theorem getImagingSettingsFlow_restores (s : DevSession) (profileIndexArg : JsValue)
    (po : Except String (List DevProfile)) (io : Except String JsValue) :
    (getImagingSettingsFlow s profileIndexArg po io).1.currentProfile = s.currentProfile := by
  simp only [getImagingSettingsFlow]
  repeat' split
  all_goals rfl

theorem setImagingSettingsFlow_restores (s : DevSession) (params profileIndexArg : JsValue)
    (po1 po2 : Except String (List DevProfile)) (gio so : Except String JsValue) :
    (setImagingSettingsFlow s params profileIndexArg po1 po2 gio so).1.currentProfile =
      s.currentProfile := by
  simp only [setImagingSettingsFlow]
  repeat' split
  all_goals rfl

/-- C4: for every session state, profile-index argument and every resolution
or rejection of the network steps, both imaging operations leave the
session's current profile exactly as it was before the call — the
save/restore around `changeProfile` is unconditional on success, rejection
and thrown paths alike. -/
theorem imaging_ops_restore_current_profile (s : DevSession)
    (params profileIndexArg : JsValue)
    (po po1 po2 : Except String (List DevProfile)) (io gio so : Except String JsValue) :
    (getImagingSettingsFlow s profileIndexArg po io).1.currentProfile = s.currentProfile ∧
    (setImagingSettingsFlow s params profileIndexArg po1 po2 gio so).1.currentProfile =
      s.currentProfile :=
  ⟨getImagingSettingsFlow_restores s profileIndexArg po io,
   setImagingSettingsFlow_restores s params profileIndexArg po1 po2 gio so⟩

/-! ### Service-operation parameter validation before I/O
(service-media.js `getStreamUri`, service-imaging.js `getImagingSettings`) -/

inductive Json where
  | jnull
  | jbool (b : Bool)
  | jnum (q : Rat)
  | jstr (s : String)
  | jarr (elems : List Json)
  | jobj (fields : List (String × Json))

/-- A JS value in the heap model: primitives inline, objects and arrays by
reference. -/
inductive HVal where
  | hnull
  | hundefined
  | hbool (b : Bool)
  | hnum (q : Rat)
  | hstr (s : String)
  | href (r : Nat)

inductive HCell where
  | hobj (fields : List (String × HVal))
  | harr (elems : List HVal)

abbrev Heap := List HCell

/-- `JSON.stringify` on a heap value: `undefined` (and a dangling or
too-deep reference) serializes to `none`; object fields with `undefined`
values are dropped, array elements falling to `none` print as `null`. -/
def stringifyVal (h : Heap) : Nat → HVal → Option Json
  | _, .hnull => some .jnull
  | _, .hbool b => some (.jbool b)
  | _, .hnum q => some (.jnum q)
  | _, .hstr s => some (.jstr s)
  | _, .hundefined => none
  | 0, .href _ => none
  | fuel+1, .href r =>
      match h.get? r with
      | none => none
      | some (.hobj fields) =>
          some (.jobj (fields.filterMap (fun kv =>
            (stringifyVal h fuel kv.2).map (fun j => (kv.1, j)))))
      | some (.harr elems) =>
          some (.jarr (elems.map (fun v => (stringifyVal h fuel v).getD .jnull)))

mutual

/-- `JSON.parse`: build a fresh heap value for a JSON tree, appending a new
cell for every object and array. -/
def allocJson : Json → Heap → HVal × Heap
  | .jnull, h => (.hnull, h)
  | .jbool b, h => (.hbool b, h)
  | .jnum q, h => (.hnum q, h)
  | .jstr s, h => (.hstr s, h)
  | .jarr elems, h =>
      let p := allocList elems h
      (.href p.2.length, p.2 ++ [.harr p.1])
  | .jobj fields, h =>
      let p := allocFields fields h
      (.href p.2.length, p.2 ++ [.hobj p.1])

def allocList : List Json → Heap → List HVal × Heap
  | [], h => ([], h)
  | j :: rest, h =>
      let p := allocJson j h
      let q := allocList rest p.2
      (p.1 :: q.1, q.2)

def allocFields : List (String × Json) → Heap → List (String × HVal) × Heap
  | [], h => ([], h)
  | kv :: rest, h =>
      let p := allocJson kv.2 h
      let q := allocFields rest p.2
      ((kv.1, p.1) :: q.1, q.2)

end

mutual

/-- Nesting depth of a JSON tree (the `stringify` fuel it needs). -/
def jdepth : Json → Nat
  | .jarr elems => jdepthList elems + 1
  | .jobj fields => jdepthFields fields + 1
  | .jnull => 0
  | .jbool _ => 0
  | .jnum _ => 0
  | .jstr _ => 0

def jdepthList : List Json → Nat
  | [] => 0
  | j :: rest => max (jdepth j) (jdepthList rest)

def jdepthFields : List (String × Json) → Nat
  | [] => 0
  | kv :: rest => max (jdepth kv.2) (jdepthFields rest)

end

/-- All references in a value lie below `n`. -/
def refBelow (n : Nat) : HVal → Prop
  | .href r => r < n
  | _ => True

/-- All references in a value lie at or above `n`. -/
def refAtLeast (n : Nat) : HVal → Prop
  | .href r => n ≤ r
  | _ => True

def cellBelow (n : Nat) : HCell → Prop
  | .hobj fields => ∀ kv ∈ fields, refBelow n kv.2
  | .harr elems => ∀ v ∈ elems, refBelow n v

def cellAtLeast (n : Nat) : HCell → Prop
  | .hobj fields => ∀ kv ∈ fields, refAtLeast n kv.2
  | .harr elems => ∀ v ∈ elems, refAtLeast n v

/-- Cells at indices below `n` only reference indices below `n`. -/
def HeapClosedBelow (h : Heap) (n : Nat) : Prop :=
  ∀ i c, i < n → h.get? i = some c → cellBelow n c

/-- A well-formed heap: every cell references only existing cells. -/
def HeapClosed (h : Heap) : Prop := ∀ c ∈ h, cellBelow h.length c

/-- The session fields read by the three accessors. -/
structure SessionRefs where
  information : HVal
  currentProfile : HVal
  profileList : HVal

def hvalTruthy : HVal → Bool
  | .hnull => false
  | .hundefined => false
  | .hbool b => b
  | .hnum q => q != 0
  | .hstr s => s != ""
  | .href _ => true

/-- `JSON.parse(JSON.stringify(v))`: `none` when `stringify` yields no JSON
(undefined / cyclic beyond fuel), in which case the JS call would throw. -/
def jsonRoundTrip (h : Heap) (fuel : Nat) (v : HVal) : Option (HVal × Heap) :=
  (stringifyVal h fuel v).map (fun j => allocJson j h)

/-- `OnvifDevice.prototype.getInformation()`. -/
def getInformation (st : SessionRefs) (h : Heap) (fuel : Nat) : Option (HVal × Heap) :=
  if hvalTruthy st.information then jsonRoundTrip h fuel st.information
  else some (.hnull, h)

/-- `OnvifDevice.prototype.getCurrentProfile()`. -/
def getCurrentProfile (st : SessionRefs) (h : Heap) (fuel : Nat) : Option (HVal × Heap) :=
  if hvalTruthy st.currentProfile then jsonRoundTrip h fuel st.currentProfile
  else some (.hnull, h)

/-- `OnvifDevice.prototype.getProfileList()` (no null branch: the profile
list is always an array). -/
def getProfileList (st : SessionRefs) (h : Heap) (fuel : Nat) : Option (HVal × Heap) :=
  jsonRoundTrip h fuel st.profileList

/-- A caller-side mutation `obj[key] = v` / `arr[i] = v` on the object at
heap index `ref`. -/
structure HeapWrite where
  ref : Nat
  field : String ⊕ Nat
  value : HVal

def setCellField (c : HCell) (fld : String ⊕ Nat) (v : HVal) : HCell :=
  match c, fld with
  | .hobj fields, .inl k =>
      if fields.any (fun kv => kv.1 == k) then
        .hobj (fields.map (fun kv => if kv.1 == k then (k, v) else kv))
      else .hobj (fields ++ [(k, v)])
  | .harr elems, .inr i => .harr (elems.set i v)
  | c, _ => c

def applyWrite (h : Heap) (w : HeapWrite) : Heap :=
  match h.get? w.ref with
  | none => h
  | some c => h.set w.ref (setCellField c w.field w.value)

def applyWrites (h : Heap) (ws : List HeapWrite) : Heap := ws.foldl applyWrite h

theorem filterMapCongrMem {α β : Type} (l : List α) (f g : α → Option β)
    (h : ∀ a ∈ l, f a = g a) : l.filterMap f = l.filterMap g := by
  induction l with
  | nil => rfl
  | cons a rest ih =>
      rw [List.filterMap_cons, List.filterMap_cons, h a (by simp),
        ih (fun b hb => h b (by simp [hb]))]

theorem mapCongrMem {α β : Type} (l : List α) (f g : α → β)
    (h : ∀ a ∈ l, f a = g a) : l.map f = l.map g := by
  induction l with
  | nil => rfl
  | cons a rest ih =>
      rw [List.map_cons, List.map_cons, h a (by simp),
        ih (fun b hb => h b (by simp [hb]))]

/-- `stringifyVal` only reads cells below `n` when the start value references
below `n` and those cells are below-closed, so two heaps agreeing below `n`
serialize such a value identically. -/
theorem stringify_agree (n : Nat) (h h2 : Heap)
    (hcl : HeapClosedBelow h n)
    (hagree : ∀ i, i < n → h2.get? i = h.get? i) :
    ∀ (fuel : Nat) (v : HVal), refBelow n v →
      stringifyVal h2 fuel v = stringifyVal h fuel v := by
  intro fuel
  induction fuel with
  | zero =>
      intro v hv
      cases v <;> rfl
  | succ f ih =>
      intro v hv
      cases v with
      | hnull => rfl
      | hundefined => rfl
      | hbool b => rfl
      | hnum q => rfl
      | hstr s => rfl
      | href r =>
          have hr : r < n := hv
          simp only [stringifyVal]
          rw [hagree r hr]
          cases hc : h.get? r with
          | none => rfl
          | some c =>
              have hcb := hcl r c hr hc
              cases c with
              | hobj fields =>
                  simp only [Option.some.injEq, Json.jobj.injEq]
                  exact filterMapCongrMem fields _ _
                    (fun kv hkv => by rw [ih kv.2 (hcb kv hkv)])
              | harr elems =>
                  simp only [Option.some.injEq, Json.jarr.injEq]
                  exact mapCongrMem elems _ _
                    (fun v hv2 => by rw [ih v (hcb v hv2)])

theorem applyWrite_get?_below (h : Heap) (w : HeapWrite) (i : Nat) (hi : i < w.ref) :
    (applyWrite h w).get? i = h.get? i := by
  unfold applyWrite
  cases hg : h.get? w.ref with
  | none => rfl
  | some c => exact List.get?_set_ne _ _ (by omega)

theorem applyWrites_get?_below (ws : List HeapWrite) (h : Heap) (n : Nat)
    (hws : ∀ w ∈ ws, n ≤ w.ref) (i : Nat) (hi : i < n) :
    (applyWrites h ws).get? i = h.get? i := by
  induction ws generalizing h with
  | nil => rfl
  | cons w rest ih =>
      show (applyWrites (applyWrite h w) rest).get? i = h.get? i
      rw [ih (applyWrite h w) (fun x hx => hws x (by simp [hx]))]
      exact applyWrite_get?_below h w i (by
        have := hws w (by simp)
        omega)

theorem heapClosed_below (h : Heap) (hcl : HeapClosed h) : HeapClosedBelow h h.length :=
  fun _ c _ hg => hcl c (List.get?_mem hg)

theorem refBelow_mono {n m : Nat} (hnm : n ≤ m) : ∀ v : HVal, refBelow n v → refBelow m v := by
  intro v hv
  cases v with
  | href r => exact lt_of_lt_of_le hv hnm
  | hnull => trivial
  | hundefined => trivial
  | hbool b => trivial
  | hnum q => trivial
  | hstr s => trivial

theorem refAtLeast_mono {n m : Nat} (hnm : n ≤ m) : ∀ v : HVal, refAtLeast m v → refAtLeast n v := by
  intro v hv
  cases v with
  | href r => exact le_trans hnm hv
  | hnull => trivial
  | hundefined => trivial
  | hbool b => trivial
  | hnum q => trivial
  | hstr s => trivial

theorem cellAtLeast_mono {n m : Nat} (hnm : n ≤ m) : ∀ c : HCell, cellAtLeast m c → cellAtLeast n c := by
  intro c hc
  cases c with
  | hobj fields => exact fun kv hkv => refAtLeast_mono hnm kv.2 (hc kv hkv)
  | harr elems => exact fun v hv => refAtLeast_mono hnm v (hc v hv)

theorem get?_eq_of_pref {h2 h3 : Heap} (hp : h2 <+: h3) (i : Nat) (hi : i < h2.length) :
    h3.get? i = h2.get? i := by
  obtain ⟨t, rfl⟩ := hp
  rw [List.get?_eq_getElem?, List.get?_eq_getElem?]
  exact List.getElem?_append_left hi

mutual

/-- `JSON.parse` only appends: the result heap extends the input heap, every
appended cell references only the fresh region, the produced value references
only the fresh region, and serializing the produced value (in any extension
of the result heap, with enough fuel) recovers the JSON tree. -/
theorem allocJson_spec (j : Json) (h : Heap) :
    (∃ ex, (allocJson j h).2 = h ++ ex ∧ ∀ cell ∈ ex, cellAtLeast h.length cell) ∧
    refAtLeast h.length (allocJson j h).1 ∧
    (∀ (h3 : Heap) (f : Nat), (allocJson j h).2 <+: h3 → jdepth j < f →
      stringifyVal h3 f (allocJson j h).1 = some j) := by
  cases j with
  | jnull =>
      exact ⟨⟨[], by simp [allocJson], by simp⟩, by simp [allocJson, refAtLeast],
        fun h3 f hp hf => by simp [allocJson, stringifyVal]⟩
  | jbool b =>
      exact ⟨⟨[], by simp [allocJson], by simp⟩, by simp [allocJson, refAtLeast],
        fun h3 f hp hf => by simp [allocJson, stringifyVal]⟩
  | jnum q =>
      exact ⟨⟨[], by simp [allocJson], by simp⟩, by simp [allocJson, refAtLeast],
        fun h3 f hp hf => by simp [allocJson, stringifyVal]⟩
  | jstr s =>
      exact ⟨⟨[], by simp [allocJson], by simp⟩, by simp [allocJson, refAtLeast],
        fun h3 f hp hf => by simp [allocJson, stringifyVal]⟩
  | jarr elems =>
      obtain ⟨⟨ex, hex, hexAL⟩, hvals, hser⟩ := allocList_spec elems h
      have heq2 : (allocJson (Json.jarr elems) h).2 =
          (allocList elems h).2 ++ [HCell.harr (allocList elems h).1] := rfl
      have heq1 : (allocJson (Json.jarr elems) h).1 =
          HVal.href (allocList elems h).2.length := rfl
      have hlen : h.length ≤ (allocList elems h).2.length := by
        rw [hex]; simp
      refine ⟨⟨ex ++ [HCell.harr (allocList elems h).1], ?_, ?_⟩, ?_, ?_⟩
      · rw [heq2, hex, List.append_assoc]
      · intro cell hcell
        rcases List.mem_append.mp hcell with hc | hc
        · exact hexAL cell hc
        · rcases List.mem_singleton.mp hc with rfl
          exact fun v hv => hvals v hv
      · rw [heq1]
        exact hlen
      · intro h3 f hp hf
        have hd : jdepth (Json.jarr elems) = jdepthList elems + 1 := rfl
        have hf1 : 1 ≤ f := by omega
        obtain ⟨f, rfl⟩ : ∃ g, f = g + 1 := ⟨f - 1, by omega⟩
        rw [heq1, heq2] at *
        have hcell : h3.get? (allocList elems h).2.length =
            some (HCell.harr (allocList elems h).1) := by
          rw [get?_eq_of_pref hp (allocList elems h).2.length (by simp)]
          exact List.get?_concat_length _ _
        simp only [stringifyVal, hcell]
        rw [hser h3 f ((List.prefix_append _ _).trans hp) (by omega)]
  | jobj fields =>
      obtain ⟨⟨ex, hex, hexAL⟩, hvals, hser⟩ := allocFields_spec fields h
      have heq2 : (allocJson (Json.jobj fields) h).2 =
          (allocFields fields h).2 ++ [HCell.hobj (allocFields fields h).1] := rfl
      have heq1 : (allocJson (Json.jobj fields) h).1 =
          HVal.href (allocFields fields h).2.length := rfl
      have hlen : h.length ≤ (allocFields fields h).2.length := by
        rw [hex]; simp
      refine ⟨⟨ex ++ [HCell.hobj (allocFields fields h).1], ?_, ?_⟩, ?_, ?_⟩
      · rw [heq2, hex, List.append_assoc]
      · intro cell hcell
        rcases List.mem_append.mp hcell with hc | hc
        · exact hexAL cell hc
        · rcases List.mem_singleton.mp hc with rfl
          exact fun kv hkv => hvals kv hkv
      · rw [heq1]
        exact hlen
      · intro h3 f hp hf
        have hd : jdepth (Json.jobj fields) = jdepthFields fields + 1 := rfl
        have hf1 : 1 ≤ f := by omega
        obtain ⟨f, rfl⟩ : ∃ g, f = g + 1 := ⟨f - 1, by omega⟩
        rw [heq1, heq2] at *
        have hcell : h3.get? (allocFields fields h).2.length =
            some (HCell.hobj (allocFields fields h).1) := by
          rw [get?_eq_of_pref hp (allocFields fields h).2.length (by simp)]
          exact List.get?_concat_length _ _
        simp only [stringifyVal, hcell]
        rw [hser h3 f ((List.prefix_append _ _).trans hp) (by omega)]

theorem allocList_spec (l : List Json) (h : Heap) :
    (∃ ex, (allocList l h).2 = h ++ ex ∧ ∀ cell ∈ ex, cellAtLeast h.length cell) ∧
    (∀ v ∈ (allocList l h).1, refAtLeast h.length v) ∧
    (∀ (h3 : Heap) (f : Nat), (allocList l h).2 <+: h3 → jdepthList l < f →
      (allocList l h).1.map (fun v => (stringifyVal h3 f v).getD .jnull) = l) := by
  cases l with
  | nil =>
      exact ⟨⟨[], by simp [allocList], by simp⟩, by simp [allocList],
        fun h3 f hp hf => by simp [allocList]⟩
  | cons j rest =>
      obtain ⟨⟨ex1, hex1, hex1AL⟩, href1, hser1⟩ := allocJson_spec j h
      obtain ⟨⟨ex2, hex2, hex2AL⟩, href2, hser2⟩ := allocList_spec rest (allocJson j h).2
      have hstep : (allocList (j :: rest) h).2 = (allocList rest (allocJson j h).2).2 := rfl
      have hvalstep : (allocList (j :: rest) h).1 =
          (allocJson j h).1 :: (allocList rest (allocJson j h).2).1 := rfl
      have hlen1 : h.length ≤ (allocJson j h).2.length := by
        rw [hex1]; simp
      have hpre1 : (allocJson j h).2 <+: (allocList rest (allocJson j h).2).2 := by
        rw [hex2]
        exact List.prefix_append _ _
      have hdcons : jdepthList (j :: rest) = max (jdepth j) (jdepthList rest) := rfl
      refine ⟨⟨ex1 ++ ex2, ?_, ?_⟩, ?_, ?_⟩
      · rw [hstep, hex2, hex1, List.append_assoc]
      · intro cell hcell
        rcases List.mem_append.mp hcell with hc | hc
        · exact hex1AL cell hc
        · exact cellAtLeast_mono hlen1 cell (hex2AL cell hc)
      · rw [hvalstep]
        intro v hv
        rcases List.mem_cons.mp hv with rfl | hv2
        · exact href1
        · exact refAtLeast_mono hlen1 v (href2 v hv2)
      · intro h3 f hp hf
        rw [hstep] at hp
        rw [hvalstep, List.map_cons]
        rw [hdcons] at hf
        rw [hser1 h3 f (hpre1.trans hp) (by omega)]
        rw [hser2 h3 f hp (by omega)]
        rfl

theorem allocFields_spec (l : List (String × Json)) (h : Heap) :
    (∃ ex, (allocFields l h).2 = h ++ ex ∧ ∀ cell ∈ ex, cellAtLeast h.length cell) ∧
    (∀ kv ∈ (allocFields l h).1, refAtLeast h.length kv.2) ∧
    (∀ (h3 : Heap) (f : Nat), (allocFields l h).2 <+: h3 → jdepthFields l < f →
      (allocFields l h).1.filterMap (fun kv =>
        (stringifyVal h3 f kv.2).map (fun jj => (kv.1, jj))) = l) := by
  cases l with
  | nil =>
      exact ⟨⟨[], by simp [allocFields], by simp⟩, by simp [allocFields],
        fun h3 f hp hf => by simp [allocFields]⟩
  | cons kv rest =>
      obtain ⟨⟨ex1, hex1, hex1AL⟩, href1, hser1⟩ := allocJson_spec kv.2 h
      obtain ⟨⟨ex2, hex2, hex2AL⟩, href2, hser2⟩ := allocFields_spec rest (allocJson kv.2 h).2
      have hstep : (allocFields (kv :: rest) h).2 = (allocFields rest (allocJson kv.2 h).2).2 := rfl
      have hvalstep : (allocFields (kv :: rest) h).1 =
          (kv.1, (allocJson kv.2 h).1) :: (allocFields rest (allocJson kv.2 h).2).1 := rfl
      have hlen1 : h.length ≤ (allocJson kv.2 h).2.length := by
        rw [hex1]; simp
      have hpre1 : (allocJson kv.2 h).2 <+: (allocFields rest (allocJson kv.2 h).2).2 := by
        rw [hex2]
        exact List.prefix_append _ _
      have hdcons : jdepthFields (kv :: rest) = max (jdepth kv.2) (jdepthFields rest) := rfl
      refine ⟨⟨ex1 ++ ex2, ?_, ?_⟩, ?_, ?_⟩
      · rw [hstep, hex2, hex1, List.append_assoc]
      · intro cell hcell
        rcases List.mem_append.mp hcell with hc | hc
        · exact hex1AL cell hc
        · exact cellAtLeast_mono hlen1 cell (hex2AL cell hc)
      · rw [hvalstep]
        intro kv2 hkv2
        rcases List.mem_cons.mp hkv2 with rfl | hv2
        · exact href1
        · exact refAtLeast_mono hlen1 kv2.2 (href2 kv2 hv2)
      · intro h3 f hp hf
        rw [hstep] at hp
        rw [hvalstep, List.filterMap_cons]
        rw [hdcons] at hf
        rw [hser1 h3 f (hpre1.trans hp) (by omega)]
        rw [hser2 h3 f hp (by omega)]
        rfl

end

/-- Deep-copy property of `JSON.parse(JSON.stringify(v))`: the copy lives
entirely in the freshly appended heap region, serializes to the same JSON as
the original, and any sequence of writes confined to the fresh region leaves
the original value's serialization untouched. -/
theorem jsonRoundTrip_spec (h : Heap) (v : HVal) (fuel fuel2 : Nat) (j : Json)
    (hclosed : HeapClosed h) (hbelow : refBelow h.length v)
    (hser : stringifyVal h fuel v = some j) (hdepth : jdepth j < fuel2) :
    ∃ c h1, jsonRoundTrip h fuel v = some (c, h1) ∧
      (∃ ex, h1 = h ++ ex ∧ ∀ cell ∈ ex, cellAtLeast h.length cell) ∧
      refAtLeast h.length c ∧
      stringifyVal h1 fuel2 c = some j ∧
      ∀ ws : List HeapWrite, (∀ w ∈ ws, h.length ≤ w.ref) →
        stringifyVal (applyWrites h1 ws) fuel v = some j := by
  obtain ⟨⟨ex, hex, hexAL⟩, hral, hround⟩ := allocJson_spec j h
  refine ⟨(allocJson j h).1, (allocJson j h).2, ?_, ⟨ex, hex, hexAL⟩, hral, ?_, ?_⟩
  · simp [jsonRoundTrip, hser]
  · exact hround (allocJson j h).2 fuel2 (List.prefix_refl _) hdepth
  · intro ws hws
    have hagree : ∀ i, i < h.length → (applyWrites (allocJson j h).2 ws).get? i = h.get? i := by
      intro i hi
      rw [applyWrites_get?_below ws (allocJson j h).2 h.length hws i hi, hex]
      exact get?_eq_of_pref (List.prefix_append _ _) i hi
    rw [stringify_agree h.length h (applyWrites (allocJson j h).2 ws)
      (heapClosed_below h hclosed) hagree fuel v hbelow, hser]

/-- C9: on a well-formed heap each accessor returns a deep copy (or null
when unset): `getInformation` and `getProfileList` return values living
entirely in freshly allocated cells that serialize to the same JSON as the
internal objects, and for every sequence of caller writes to that fresh
region the internal objects' serializations are unchanged;
`getCurrentProfile` returns `null` when no profile is set and the same kind
of isolated deep copy when one is set. -/
theorem accessors_deep_copy_isolation (h : Heap) (st : SessionRefs)
    (fuel fuel2 : Nat) (jInfo jList : Json)
    (hclosed : HeapClosed h)
    (hbI : refBelow h.length st.information)
    (hbC : refBelow h.length st.currentProfile)
    (hbL : refBelow h.length st.profileList)
    (htI : hvalTruthy st.information = true)
    (hsI : stringifyVal h fuel st.information = some jInfo)
    (hsL : stringifyVal h fuel st.profileList = some jList)
    (hdI : jdepth jInfo < fuel2) (hdL : jdepth jList < fuel2) :
    (∃ c h1, getInformation st h fuel = some (c, h1) ∧
      (∃ ex, h1 = h ++ ex ∧ ∀ cell ∈ ex, cellAtLeast h.length cell) ∧
      refAtLeast h.length c ∧
      stringifyVal h1 fuel2 c = some jInfo ∧
      ∀ ws : List HeapWrite, (∀ w ∈ ws, h.length ≤ w.ref) →
        stringifyVal (applyWrites h1 ws) fuel st.information = some jInfo) ∧
    (st.currentProfile = .hnull → getCurrentProfile st h fuel = some (.hnull, h)) ∧
    (∀ jCurr : Json, hvalTruthy st.currentProfile = true →
      stringifyVal h fuel st.currentProfile = some jCurr → jdepth jCurr < fuel2 →
      ∃ c h1, getCurrentProfile st h fuel = some (c, h1) ∧
        (∃ ex, h1 = h ++ ex ∧ ∀ cell ∈ ex, cellAtLeast h.length cell) ∧
        refAtLeast h.length c ∧
        stringifyVal h1 fuel2 c = some jCurr ∧
        ∀ ws : List HeapWrite, (∀ w ∈ ws, h.length ≤ w.ref) →
          stringifyVal (applyWrites h1 ws) fuel st.currentProfile = some jCurr) ∧
    (∃ c h1, getProfileList st h fuel = some (c, h1) ∧
      (∃ ex, h1 = h ++ ex ∧ ∀ cell ∈ ex, cellAtLeast h.length cell) ∧
      refAtLeast h.length c ∧
      stringifyVal h1 fuel2 c = some jList ∧
      ∀ ws : List HeapWrite, (∀ w ∈ ws, h.length ≤ w.ref) →
        stringifyVal (applyWrites h1 ws) fuel st.profileList = some jList) := by
  refine ⟨?_, ?_, ?_, ?_⟩
  · have := jsonRoundTrip_spec h st.information fuel fuel2 jInfo hclosed hbI hsI hdI
    simpa [getInformation, htI] using this
  · intro hn
    simp [getCurrentProfile, hn, hvalTruthy]
  · intro jCurr htC hsC hdC
    have := jsonRoundTrip_spec h st.currentProfile fuel fuel2 jCurr hclosed hbC hsC hdC
    simpa [getCurrentProfile, htC] using this
  · have := jsonRoundTrip_spec h st.profileList fuel fuel2 jList hclosed hbL hsL hdL
    simpa [getProfileList] using this

/-- The concrete heap, session and JSON trees used to witness C9: an
information object in cell 0, a current profile object in cell 1, and the
profile list in cell 2 (an array referencing the profile cell, as after
initialization). -/
def c9heap : Heap :=
  [HCell.hobj [("Manufacturer", HVal.hstr "Acme")],
   HCell.hobj [("token", HVal.hstr "p0")],
   HCell.harr [HVal.href 1]]

def c9refs : SessionRefs :=
  { information := .href 0, currentProfile := .href 1, profileList := .href 2 }

def c9info : Json := .jobj [("Manufacturer", .jstr "Acme")]

def c9curr : Json := .jobj [("token", .jstr "p0")]

def c9list : Json := .jarr [.jobj [("token", .jstr "p0")]]

/-- Witness for C9 at a concrete three-cell heap with a set current
profile. -/
theorem accessors_deep_copy_isolation_witness :
    (∃ c h1, getInformation c9refs c9heap 3 = some (c, h1) ∧
      (∃ ex, h1 = c9heap ++ ex ∧ ∀ cell ∈ ex, cellAtLeast c9heap.length cell) ∧
      refAtLeast c9heap.length c ∧
      stringifyVal h1 3 c = some c9info ∧
      ∀ ws : List HeapWrite, (∀ w ∈ ws, c9heap.length ≤ w.ref) →
        stringifyVal (applyWrites h1 ws) 3 c9refs.information = some c9info) ∧
    (c9refs.currentProfile = .hnull → getCurrentProfile c9refs c9heap 3 = some (.hnull, c9heap)) ∧
    (∃ c h1, getCurrentProfile c9refs c9heap 3 = some (c, h1) ∧
      (∃ ex, h1 = c9heap ++ ex ∧ ∀ cell ∈ ex, cellAtLeast c9heap.length cell) ∧
      refAtLeast c9heap.length c ∧
      stringifyVal h1 3 c = some c9curr ∧
      ∀ ws : List HeapWrite, (∀ w ∈ ws, c9heap.length ≤ w.ref) →
        stringifyVal (applyWrites h1 ws) 3 c9refs.currentProfile = some c9curr) ∧
    (∃ c h1, getProfileList c9refs c9heap 3 = some (c, h1) ∧
      (∃ ex, h1 = c9heap ++ ex ∧ ∀ cell ∈ ex, cellAtLeast c9heap.length cell) ∧
      refAtLeast c9heap.length c ∧
      stringifyVal h1 3 c = some c9list ∧
      ∀ ws : List HeapWrite, (∀ w ∈ ws, c9heap.length ≤ w.ref) →
        stringifyVal (applyWrites h1 ws) 3 c9refs.profileList = some c9list) := by
  have A := accessors_deep_copy_isolation c9heap c9refs 3 3 c9info c9list
    (by
      intro c hc
      simp only [c9heap, List.mem_cons, List.mem_singleton, List.not_mem_nil, or_false] at hc
      rcases hc with rfl | rfl | rfl
      · intro kv hkv
        simp only [List.mem_singleton] at hkv
        subst hkv
        trivial
      · intro kv hkv
        simp only [List.mem_singleton] at hkv
        subst hkv
        trivial
      · intro v hv
        simp only [List.mem_singleton] at hv
        subst hv
        show (1 : Nat) < 3
        omega)
    (by show (0 : Nat) < 3; omega)
    (by show (1 : Nat) < 3; omega)
    (by show (2 : Nat) < 3; omega)
    rfl rfl rfl
    (by show (1 : Nat) < 3; omega)
    (by show (2 : Nat) < 3; omega)
  exact ⟨A.1, A.2.1, A.2.2.1 c9curr rfl rfl (by show (1 : Nat) < 3; omega), A.2.2.2⟩

end NodeOnvif
